import Mathlib

/-
Verification of the buddy-allocator bookkeeping tree (src/src/lib.rs).

The embedding below is a shallow translation of the source:
machine integers (u8, usize) become Nat; subtractions that the source
performs on unsigned machine integers, and hence abort on underflow in
checked builds, are modelled with checkedSub into Option; slice indexing,
which aborts when out of bounds, is modelled with bounds-checked access
into Option.  A result of none models an aborted (panicking) execution.
The debug tracing statements of the source (dbg, println) do not touch
any state and are omitted.
-/

namespace flat_tree

/-- sibling_of from mod flat_tree: index + 1 when the index is even,
index - 1 otherwise. -/
def sibling_of (index : Nat) : Nat :=
  if index % 2 = 0 then index + 1 else index - 1

/-- parent_of from mod flat_tree: (index - 1) >> 1.  The source only
invokes it on nonzero indices, where Nat truncated subtraction agrees
with usize subtraction. -/
def parent_of (index : Nat) : Nat :=
  (index - 1) / 2

/-- blocks_in_tree from mod flat_tree: (1 << levels) - 1. -/
def blocks_in_tree (levels : Nat) : Nat :=
  2 ^ levels - 1

/-- blocks_in_level from mod flat_tree. -/
def blocks_in_level (level : Nat) : Nat :=
  blocks_in_tree level - blocks_in_tree (level - 1)

end flat_tree

namespace nested_tree

/-- LEVELS_IN_SUBTREE constant from mod nested_tree. -/
def LEVELS_IN_SUBTREE : Nat := 6

/-- SIZE_OF_SUBTREE constant from mod nested_tree: 1 << (LEVELS_IN_SUBTREE - 1). -/
def SIZE_OF_SUBTREE : Nat := 2 ^ (LEVELS_IN_SUBTREE - 1)

/-- blocks_in_tree from mod nested_tree, translated verbatim: note that
the source multiplies the number of perfect LEVELS (not the number of
sub-trees) by the node count of one sub-tree. -/
def blocks_in_tree (levels_in_tree : Nat) : Nat :=
  let perfect_flat_levels_in_subtrees :=
    levels_in_tree / LEVELS_IN_SUBTREE * LEVELS_IN_SUBTREE
  let leftover_blocks := flat_tree.blocks_in_tree levels_in_tree
    - flat_tree.blocks_in_tree perfect_flat_levels_in_subtrees
  let blocks_in_subtrees :=
    perfect_flat_levels_in_subtrees * flat_tree.blocks_in_tree LEVELS_IN_SUBTREE
  blocks_in_subtrees + leftover_blocks

end nested_tree

/-- Block struct: the per-node annotation.  order_free is a u8 in the
source; values in any real tree are bounded by the tree height, far
below 256, so Nat is a faithful model on the inputs considered here. -/
structure Block where
  order_free : Nat
deriving DecidableEq

/-- Block.is_used from the source: order_free == 0. -/
def Block.is_used (b : Block) : Bool :=
  b.order_free == 0

/-- Add<u8> for Block from the source: adds to order_free. -/
def Block.add (b : Block) (rhs : Nat) : Block :=
  ⟨b.order_free + rhs⟩

/-- cmp max on Block values; the derived Ord of the source compares the
single field order_free, and Rust max returns the second argument on
ties. -/
def blockMax (a b : Block) : Block :=
  if b.order_free < a.order_free then a else b

/-- Unsigned machine subtraction: aborts (none) on underflow, exactly as
usize and u8 subtraction do in checked builds. -/
def checkedSub (a b : Nat) : Option Nat :=
  if b ≤ a then some (a - b) else none

namespace Tree

/-- Tree::subtree_order.  LEVELS is the const generic height parameter. -/
def subtree_order (LEVELS order : Nat) : Nat :=
  if order ≤ LEVELS % nested_tree.LEVELS_IN_SUBTREE then 0
  else (order - LEVELS % nested_tree.LEVELS_IN_SUBTREE) / nested_tree.LEVELS_IN_SUBTREE + 1

/-- Tree::subtree_slice_offset.  The source compares against the u8
difference LEVELS - 2, so the Nat truncated subtraction here agrees with
the source whenever 2 <= LEVELS. -/
def subtree_slice_offset (LEVELS t : Nat) : Nat :=
  if t < LEVELS - 2 then nested_tree.blocks_in_tree (LEVELS - t - 1) else 0

/-- Tree::size_of_subtree. -/
def size_of_subtree (LEVELS t : Nat) : Nat :=
  if t = 0 ∧ LEVELS % nested_tree.LEVELS_IN_SUBTREE ≠ 0 then
    2 ^ (LEVELS % nested_tree.LEVELS_IN_SUBTREE - 1)
  else nested_tree.SIZE_OF_SUBTREE

/-- Tree::subtree_idx. -/
def subtree_idx (LEVELS idx t : Nat) : Nat :=
  (idx - subtree_slice_offset LEVELS t) / size_of_subtree LEVELS t

/-- Tree::local_idx. -/
def local_idx (LEVELS idx t : Nat) : Nat :=
  (idx - subtree_slice_offset LEVELS t) % size_of_subtree LEVELS t

/-- Tree::global_idx. -/
def global_idx (LEVELS l s t : Nat) : Nat :=
  s * size_of_subtree LEVELS t + l + subtree_slice_offset LEVELS t

/-- Tree::parent, with the usize subtraction idx - subtree_slice_offset
checked: the source would abort on underflow. -/
def parent (LEVELS idx order : Nat) : Option Nat := do
  let t := subtree_order LEVELS order
  let subtree_slice_idx ← checkedSub idx (subtree_slice_offset LEVELS t)
  let l := subtree_slice_idx % size_of_subtree LEVELS t
  if l = 0 then
    pure (global_idx LEVELS 0 (subtree_slice_idx * 2) (t + 1))
  else
    pure (global_idx LEVELS (flat_tree.parent_of l)
      (subtree_slice_idx / size_of_subtree LEVELS t) t)

/-- Tree::sibling, with the same checked subtraction as parent. -/
def sibling (LEVELS idx order : Nat) : Option Nat := do
  let t := subtree_order LEVELS order
  let subtree_slice_idx ← checkedSub idx (subtree_slice_offset LEVELS t)
  let s := subtree_slice_idx / size_of_subtree LEVELS t
  let l := subtree_slice_idx % size_of_subtree LEVELS t
  if l = 0 then
    pure (global_idx LEVELS 0 (flat_tree.sibling_of s) t)
  else
    pure (global_idx LEVELS (flat_tree.sibling_of l) s t)

/-- Tree::merge_from_children.  The write through IndexMut is
bounds-checked, as slice indexing is in the source. -/
def merge_from_children (bs : List Block) (idx : Nat) (left right : Block) :
    Option (List Block) :=
  if idx < bs.length then
    some (bs.set idx
      (if left = right ∧ left.is_used = false then left.add 1 else blockMax left right))
  else none

/-- One iteration of the loop body of Tree::update_blocks_above: read the
current block, read its sibling, compute the parent index, merge into the
parent, and continue from the parent. -/
def update_step (LEVELS : Nat) (st : List Block × Nat) (o : Nat) :
    Option (List Block × Nat) := do
  let (bs, idx) := st
  let block ← bs[idx]?
  let sib ← sibling LEVELS idx o
  let sibling_block ← bs[sib]?
  let parent_idx ← parent LEVELS idx o
  let bs2 ← merge_from_children bs parent_idx block sibling_block
  pure (bs2, parent_idx)

/-- Tree::update_blocks_above: iterates the loop body for the loop
variable running over (order - 1)..LEVELS, where order - 1 is a u8
subtraction (checked). -/
def update_blocks_above (LEVELS : Nat) (bs : List Block) (idx order : Nat) :
    Option (List Block) := do
  let start ← checkedSub order 1
  let st ← (List.range' start (LEVELS - start)).foldlM (update_step LEVELS) (bs, idx)
  pure st.1

/-- Tree::new_free, translated loop for loop.  The unbounded loops of the
source run until tree_offset exceeds the storage length; with a stride of
tree_offset_size per step they perform exactly len / tree_offset_size + 1
iterations.  The list length is invariant under every write, so the
length reads of the source are the initial length. -/
def new_free (LEVELS : Nat) (blocks : List Block) : Option (List Block) := do
  let len := blocks.length
  let slice_offset := subtree_slice_offset LEVELS 0
  let tree_offset_size ←
    if LEVELS % nested_tree.LEVELS_IN_SUBTREE ≠ 0 then do
      let a ← checkedSub (LEVELS % nested_tree.LEVELS_IN_SUBTREE) 1
      let b ← checkedSub a 1
      pure (2 ^ b)
    else
      pure (2 ^ (nested_tree.LEVELS_IN_SUBTREE - 2))
  let bottom_level_size ← checkedSub len slice_offset
  let bs1 ← (List.range (len / tree_offset_size + 1)).foldlM
    (fun b tr =>
      (List.range' (tree_offset_size * tr) (bottom_level_size - tree_offset_size * tr)).foldlM
        (fun b2 i =>
          if slice_offset + i < b2.length then some (b2.set (slice_offset + i) ⟨1⟩) else none)
        b)
    blocks
  let bs2 ← (List.range (len / tree_offset_size + 1)).foldlM
    (fun b tr =>
      (List.range' (tree_offset_size * tr) (bottom_level_size - tree_offset_size * tr)).foldlM
        (fun b2 i => update_blocks_above LEVELS b2 (slice_offset + i) 1)
        b)
    bs1
  pure bs2

end Tree

/-- The per-subtree stride is always positive. -/
theorem size_of_subtree_pos (LEVELS t : Nat) : 0 < Tree.size_of_subtree LEVELS t := by
  unfold Tree.size_of_subtree
  split
  · exact Nat.pos_pow_of_pos _ (by decide)
  · decide

/-- C1: index-conversion bijectivity.  For a global index g at or beyond
the slice start of its tier t, converting to (local, subtree) and back
with global_idx returns g; conversely, for a local index within the
stride of tier t, local_idx and subtree_idx recover the components of
global_idx l s t.  The hypothesis 2 <= LEVELS confines the statement to
heights where the Nat model of subtree_slice_offset coincides with the
u8 arithmetic of the source. -/
theorem c1_index_conversions_bijective (LEVELS g t l s : Nat)
    (_hL : 2 ≤ LEVELS)
    (hg : Tree.subtree_slice_offset LEVELS t ≤ g)
    (hl : l < Tree.size_of_subtree LEVELS t) :
    Tree.global_idx LEVELS (Tree.local_idx LEVELS g t) (Tree.subtree_idx LEVELS g t) t = g ∧
    Tree.local_idx LEVELS (Tree.global_idx LEVELS l s t) t = l ∧
    Tree.subtree_idx LEVELS (Tree.global_idx LEVELS l s t) t = s := by
  have hsz : 0 < Tree.size_of_subtree LEVELS t := size_of_subtree_pos LEVELS t
  unfold Tree.global_idx Tree.local_idx Tree.subtree_idx
  refine ⟨?_, ?_, ?_⟩
  · rw [Nat.div_add_mod', Nat.sub_add_cancel hg]
  · rw [Nat.add_sub_cancel, Nat.mul_add_mod_of_lt hl]
  · rw [Nat.add_sub_cancel, Nat.mul_comm s, Nat.mul_add_div hsz,
      Nat.div_eq_of_lt hl, Nat.add_zero]

/-- C1 witness at LEVELS = 8, tier 1 (slice offset 378, stride 32),
global index 400, local index 5, subtree index 2. -/
theorem c1_witness :
    (2 ≤ 8 ∧ Tree.subtree_slice_offset 8 1 ≤ 400 ∧ 5 < Tree.size_of_subtree 8 1) ∧
    (Tree.global_idx 8 (Tree.local_idx 8 400 1) (Tree.subtree_idx 8 400 1) 1 = 400 ∧
     Tree.local_idx 8 (Tree.global_idx 8 5 2 1) 1 = 5 ∧
     Tree.subtree_idx 8 (Tree.global_idx 8 5 2 1) 1 = 2) :=
  ⟨⟨by decide, by decide, by decide⟩,
   c1_index_conversions_bijective 8 400 1 5 2 (by decide) (by decide) (by decide)⟩

/-- C2: the merge rule.  When both children carry the same nonzero
order_free o, merge_from_children writes o + 1 into the parent slot; in
every other case (unequal values, or equal but zero) it writes the
maximum of the two order_free values. -/
theorem c2_merge_rule (bs : List Block) (p : Nat) (left right : Block)
    (hp : p < bs.length) :
    (left.order_free = right.order_free → left.order_free ≠ 0 →
      Tree.merge_from_children bs p left right =
        some (bs.set p ⟨left.order_free + 1⟩)) ∧
    ((left.order_free ≠ right.order_free ∨ left.order_free = 0) →
      Tree.merge_from_children bs p left right =
        some (bs.set p ⟨max left.order_free right.order_free⟩)) := by
  obtain ⟨l⟩ := left
  obtain ⟨r⟩ := right
  constructor
  · intro heq hne
    have h1 : (⟨l⟩ : Block) = ⟨r⟩ := by
      simp only [Block.mk.injEq]
      exact heq
    have h2 : (⟨l⟩ : Block).is_used = false := by
      simp only [Block.is_used, beq_eq_false_iff_ne, ne_eq]
      exact hne
    unfold Tree.merge_from_children
    rw [if_pos hp, if_pos ⟨h1, h2⟩]
    rfl
  · intro h
    have hcond : ¬((⟨l⟩ : Block) = ⟨r⟩ ∧ (⟨l⟩ : Block).is_used = false) := by
      rcases h with h | h
      · rintro ⟨h1, -⟩
        refine h ?_
        simpa only [Block.mk.injEq] using h1
      · rintro ⟨-, h2⟩
        have hl0 : l = 0 := h
        simp [Block.is_used, hl0] at h2
    have hmax : blockMax ⟨l⟩ ⟨r⟩ = (⟨max l r⟩ : Block) := by
      unfold blockMax
      split
      · rename_i hlt
        have hrl : r < l := hlt
        rw [Nat.max_eq_left (Nat.le_of_lt hrl)]
      · rename_i hge
        have hlr : l ≤ r := Nat.not_lt.mp hge
        rw [Nat.max_eq_right hlr]
    unfold Tree.merge_from_children
    rw [if_pos hp, if_neg hcond, hmax]

/-- C2 witness: two equal free children of order 3 push 4 into the
parent slot; children of orders 3 and 7 push max 3 7 = 7. -/
theorem c2_merge_rule_witness :
    Tree.merge_from_children [⟨5⟩, ⟨9⟩] 0 ⟨3⟩ ⟨3⟩ = some [⟨4⟩, ⟨9⟩] ∧
    Tree.merge_from_children [⟨5⟩, ⟨9⟩] 1 ⟨3⟩ ⟨7⟩ = some [⟨5⟩, ⟨7⟩] :=
  ⟨(c2_merge_rule [⟨5⟩, ⟨9⟩] 0 ⟨3⟩ ⟨3⟩ (by decide)).1 rfl (by decide),
   (c2_merge_rule [⟨5⟩, ⟨9⟩] 1 ⟨3⟩ ⟨7⟩ (by decide)).2 (Or.inl (by decide))⟩

/-- C3: refutation of the post-initialization claim.  For height 2 with
correctly sized all-free storage (nested blocks_in_tree 2 = 3 slots),
the spec requires new_free to return a tree with order_free values
2, 1, 1; the code instead aborts: while propagating from leaf index 2 it
computes parent index 128 and writes out of bounds.  The same abort (via
an out-of-bounds sibling read or an index underflow) occurs at heights
3 and 8, the latter being the input of the test test_init_tree of the
repository itself. -/
theorem c3_new_free_fails :
    Tree.new_free 2 [⟨1⟩, ⟨1⟩, ⟨1⟩] = none := by decide

/-- C4: refutation of the height-3 scenario.  With 7 correctly sized
all-free slots, the spec expects new_free to produce order_free values
3, 2, 2, 1, 1, 1, 1; the code aborts during the very first propagation
from leaf index 3: the leaf has local index 0 in its tier, is treated as
a subtree root, and its sibling is computed as global index 7, one past
the end of the 7-slot storage. -/
theorem c4_height3_new_free_fails :
    Tree.new_free 3 (List.replicate 7 ⟨1⟩) = none := by decide

/-- C5: refutation of the round-trip recovery scenario.  Starting from
the state the spec prescribes after flipping leaf d used and propagating
(order_free 1, 1, 2, then leaf d reset to 1, then 1, 1, 1), the restoring
call update_blocks_above on leaf index 3 with order 1 aborts at its first
step with the same out-of-bounds sibling read at index 7, so the
post-init values are never restored. -/
theorem c5_height3_restore_fails :
    Tree.update_blocks_above 3 [⟨1⟩, ⟨1⟩, ⟨2⟩, ⟨1⟩, ⟨1⟩, ⟨1⟩, ⟨1⟩] 3 1 = none := by
  decide

/-- C6: refutation of the frame property.  In the height-2 tree with
state 1, 1, 1, propagating from the root (index 0, order 2 = its level
order) must write nothing, since the root has no ancestors; the code
instead computes the parent of the root as the root itself and
overwrites the starting node: slot 0 changes from 1 to 2. -/
theorem c6_update_writes_starting_node :
    Tree.update_blocks_above 2 [⟨1⟩, ⟨1⟩, ⟨1⟩] 0 2 = some [⟨2⟩, ⟨1⟩, ⟨1⟩] := by
  decide

/-- C7: refutation of idempotence.  In the height-2 tree with state
1, 1, 2, a first propagation from index 0 with order 2 yields 2, 1, 2;
repeating the identical call on that result yields 3, 1, 2 (the root and
its computed sibling are now equal and nonzero, so the merge rule
coalesces them), so the second pass changes a value. -/
theorem c7_update_not_idempotent :
    Tree.update_blocks_above 2 [⟨1⟩, ⟨1⟩, ⟨2⟩] 0 2 = some [⟨2⟩, ⟨1⟩, ⟨2⟩] ∧
    Tree.update_blocks_above 2 [⟨2⟩, ⟨1⟩, ⟨2⟩] 0 2 = some [⟨3⟩, ⟨1⟩, ⟨2⟩] ∧
    ([⟨2⟩, ⟨1⟩, ⟨2⟩] : List Block) ≠ [⟨3⟩, ⟨1⟩, ⟨2⟩] := by
  refine ⟨by decide, by decide, by decide⟩

/-- C8: refutation of the no-failure claim.  Height 3, storage of
blocks_in_tree 3 = 7 slots, starting index 3 (a leaf) and order 1 (the
order of a leaf) are all within the stated preconditions, yet
update_blocks_above aborts: it computes global sibling index 7 for the
leaf and reads one slot past the end of the storage. -/
theorem c8_update_out_of_bounds :
    Tree.update_blocks_above 3 (List.replicate 7 ⟨1⟩) 3 1 = none := by decide

/-- C9: refutation of nested and flat node-count agreement.  At
L = 6 = 1 * LEVELS_IN_SUBTREE the flat count is 2 ^ 6 - 1 = 63 while the
nested computation multiplies the 6 perfect levels (instead of the one
sub-tree they form) by 63, returning 378. -/
theorem c9_nested_flat_counts_disagree :
    nested_tree.blocks_in_tree 6 = 378 ∧ flat_tree.blocks_in_tree 6 = 63 ∧
    nested_tree.blocks_in_tree 6 ≠ flat_tree.blocks_in_tree 6 := by
  refine ⟨by decide, by decide, by decide⟩

/-- C10: refutation of initialization insensitivity.  new_free never
returns a tree at all: for height 2 it aborts on every storage content
(two contrasting buffers shown), so no slot value is ever produced,
determined by LEVELS or otherwise. -/
theorem c10_new_free_returns_no_tree :
    Tree.new_free 2 [⟨0⟩, ⟨0⟩, ⟨0⟩] = none ∧
    Tree.new_free 2 [⟨5⟩, ⟨6⟩, ⟨7⟩] = none := by
  refine ⟨by decide, by decide⟩
